import Mathlib

/-!
Verification of the math-expression parser and evaluator
(`src/lib.rs` of the `parser_project_sydorchuk` repository).

The Rust code works on IEEE-754 `f64` values.  We embed `f64` shallowly as
an inductive `F64`: an exact rational for every finite value (rounding of
finite arithmetic is not modelled; every claim below only exercises values
on which IEEE arithmetic is exact), plus the special values negative zero,
the two infinities and NaN, whose comparison and propagation behaviour the
claims do depend on and which are modelled faithfully.  The transcendental
primitives (`sin`, `cos`, `tan`, `exp`, `ln`, `powf`) are kept abstract as a
`FloatOps` record of functions: no claim depends on their numeric values,
only on how `eval` routes values into and out of them.
-/

namespace MathExpr

/-- Decidable equality for `Except`, so that concrete parse and evaluation
outcomes can be settled by `decide`. -/
instance {ε α : Type} [DecidableEq ε] [DecidableEq α] :
    DecidableEq (Except ε α) := fun a b =>
  match a, b with
  | .error e, .error f =>
    match decEq e f with
    | isTrue h => isTrue (h ▸ rfl)
    | isFalse h => isFalse fun hh => h (Except.error.inj hh)
  | .ok x, .ok y =>
    match decEq x y with
    | isTrue h => isTrue (h ▸ rfl)
    | isFalse h => isFalse fun hh => h (Except.ok.inj hh)
  | .error _, .ok _ => isFalse fun hh => Except.noConfusion hh
  | .ok _, .error _ => isFalse fun hh => Except.noConfusion hh

/-- Shallow model of a Rust `f64` value: `fin q` is the finite value `q`
(covering positive zero as `fin 0`), together with negative zero, the two
infinities and NaN. -/
inductive F64 where
  | fin (q : ℚ)
  | negZero
  | inf
  | negInf
  | nan
deriving DecidableEq

/-- IEEE equality (`==` on `f64`): NaN is equal to nothing, negative zero is
equal to positive zero, everything else is equality of values. -/
def F64.beq : F64 → F64 → Bool
  | .fin a, .fin b => decide (a = b)
  | .fin a, .negZero => decide (a = 0)
  | .negZero, .fin b => decide (b = 0)
  | .negZero, .negZero => true
  | .inf, .inf => true
  | .negInf, .negInf => true
  | _, _ => false

/-- IEEE `<=` on `f64`: false whenever either side is NaN, `-inf` below
everything, `inf` above everything, both zeros equal. -/
def F64.le : F64 → F64 → Bool
  | .nan, _ => false
  | _, .nan => false
  | .negInf, _ => true
  | _, .negInf => false
  | _, .inf => true
  | .inf, _ => false
  | .fin a, .fin b => decide (a ≤ b)
  | .fin a, .negZero => decide (a ≤ 0)
  | .negZero, .fin b => decide (0 ≤ b)
  | .negZero, .negZero => true

/-- IEEE negation of the model. -/
def F64.neg : F64 → F64
  | .fin q => if q = 0 then .negZero else .fin (-q)
  | .negZero => .fin 0
  | .inf => .negInf
  | .negInf => .inf
  | .nan => .nan

/-- IEEE addition on the model: NaN propagates, `inf + -inf` is NaN, finite
addition is exact (rounding not modelled). -/
def F64.add : F64 → F64 → F64
  | .nan, _ => .nan
  | _, .nan => .nan
  | .inf, .negInf => .nan
  | .negInf, .inf => .nan
  | .inf, _ => .inf
  | _, .inf => .inf
  | .negInf, _ => .negInf
  | _, .negInf => .negInf
  | .negZero, .negZero => .negZero
  | .negZero, .fin b => .fin b
  | .fin a, .negZero => .fin a
  | .fin a, .fin b => .fin (a + b)

/-- IEEE subtraction, as addition of the negation (which agrees with IEEE
subtraction on all cases of the model, signed zeros included). -/
def F64.sub (a b : F64) : F64 := a.add b.neg

/-- IEEE multiplication on the model: NaN propagates, `0 * inf` is NaN,
signs of zeros and infinities tracked, finite multiplication exact. -/
def F64.mul : F64 → F64 → F64
  | .nan, _ => .nan
  | _, .nan => .nan
  | .inf, .inf => .inf
  | .inf, .negInf => .negInf
  | .negInf, .inf => .negInf
  | .negInf, .negInf => .inf
  | .inf, .fin q => if q = 0 then .nan else if 0 < q then .inf else .negInf
  | .fin q, .inf => if q = 0 then .nan else if 0 < q then .inf else .negInf
  | .negInf, .fin q => if q = 0 then .nan else if 0 < q then .negInf else .inf
  | .fin q, .negInf => if q = 0 then .nan else if 0 < q then .negInf else .inf
  | .inf, .negZero => .nan
  | .negZero, .inf => .nan
  | .negInf, .negZero => .nan
  | .negZero, .negInf => .nan
  | .negZero, .negZero => .fin 0
  | .negZero, .fin q => if q < 0 then .fin 0 else .negZero
  | .fin q, .negZero => if q < 0 then .fin 0 else .negZero
  | .fin a, .fin b =>
      if (a = 0 ∧ b < 0) ∨ (a < 0 ∧ b = 0) then .negZero else .fin (a * b)

/-- IEEE division on the model: NaN propagates, `inf/inf` and `0/0` are NaN,
division by a zero gives a signed infinity, division by an infinity gives a
signed zero, finite division exact. -/
def F64.div : F64 → F64 → F64
  | .nan, _ => .nan
  | _, .nan => .nan
  | .inf, .inf => .nan
  | .inf, .negInf => .nan
  | .negInf, .inf => .nan
  | .negInf, .negInf => .nan
  | .inf, .fin q => if q < 0 then .negInf else .inf
  | .inf, .negZero => .negInf
  | .negInf, .fin q => if q < 0 then .inf else .negInf
  | .negInf, .negZero => .inf
  | .fin q, .inf => if q < 0 then .negZero else .fin 0
  | .negZero, .inf => .negZero
  | .fin q, .negInf => if q < 0 then .fin 0 else .negZero
  | .negZero, .negInf => .fin 0
  | .negZero, .negZero => .nan
  | .fin a, .negZero => if a = 0 then .nan else if a < 0 then .inf else .negInf
  | .negZero, .fin b => if b = 0 then .nan else if b < 0 then .fin 0 else .negZero
  | .fin a, .fin b =>
      if b = 0 then (if a = 0 then .nan else if a < 0 then .negInf else .inf)
      else if a = 0 ∧ b < 0 then .negZero
      else .fin (a / b)

/-- The transcendental `f64` primitives used by the evaluator, kept abstract:
the claims only concern how the evaluator routes values through them. -/
structure FloatOps where
  sin : F64 → F64
  cos : F64 → F64
  tan : F64 → F64
  exp : F64 → F64
  ln : F64 → F64
  powf : F64 → F64 → F64

/-- A concrete instance of `FloatOps` used only to instantiate universally
quantified theorems at a specific model. -/
def trivOps : FloatOps :=
  ⟨fun _ => .nan, fun _ => .nan, fun _ => .nan, fun _ => .nan, fun _ => .nan,
   fun _ _ => .nan⟩

/-- The `Expr` enum of `src/lib.rs` (numbers, binary operations, unary
functions). -/
inductive Expr where
  | num (n : F64)
  | add (l r : Expr)
  | sub (l r : Expr)
  | mul (l r : Expr)
  | div (l r : Expr)
  | sin (x : Expr)
  | cos (x : Expr)
  | tan (x : Expr)
  | exp (x : Expr)
  | ln (x : Expr)
  | pow (b e : Expr)
  | root (v d : Expr)
  | log (v b : Expr)
deriving DecidableEq

/-- The evaluation-stage errors of `eval` in `src/lib.rs` (there they are
`anyhow` strings; the constructors carry exactly the data the messages
interpolate). -/
inductive EvalErr where
  | divisionByZero
  | invalidLog (v b : F64)
  | invalidLn (v : F64)
  | rootDegreeZero
deriving DecidableEq

/-- The recursive evaluator `eval` of `src/lib.rs` lines 106-156, translated
clause by clause; `do`-notation mirrors the `?` operator of the source. -/
def eval (ops : FloatOps) : Expr → Except EvalErr F64
  | .num n => .ok n
  | .add a b => do
      let va ← eval ops a
      let vb ← eval ops b
      .ok (va.add vb)
  | .sub a b => do
      let va ← eval ops a
      let vb ← eval ops b
      .ok (va.sub vb)
  | .mul a b => do
      let va ← eval ops a
      let vb ← eval ops b
      .ok (va.mul vb)
  | .div a b => do
      let rv ← eval ops b
      if rv.beq (.fin 0) then
        .error .divisionByZero
      else do
        let lv ← eval ops a
        .ok (lv.div rv)
  | .sin x => do
      let v ← eval ops x
      .ok (ops.sin v)
  | .cos x => do
      let v ← eval ops x
      .ok (ops.cos v)
  | .tan x => do
      let v ← eval ops x
      .ok (ops.tan v)
  | .exp x => do
      let v ← eval ops x
      .ok (ops.exp v)
  | .pow a b => do
      let va ← eval ops a
      let vb ← eval ops b
      .ok (ops.powf va vb)
  | .log value base => do
      let v ← eval ops value
      let b ← eval ops base
      if v.le (.fin 0) || b.le (.fin 0) || b.beq (.fin 1) then
        .error (.invalidLog v b)
      else
        .ok ((ops.ln v).div (ops.ln b))
  | .ln x => do
      let v ← eval ops x
      if v.le (.fin 0) then
        .error (.invalidLn v)
      else
        .ok (ops.ln v)
  | .root value degree => do
      let deg ← eval ops degree
      if deg.beq (.fin 0) then
        .error .rootDegreeZero
      else do
        let v ← eval ops value
        .ok (ops.powf v ((F64.fin 1).div deg))

/-- The public wrapper `eval_expr` of `src/lib.rs` lines 171-173. -/
def eval_expr (ops : FloatOps) (e : Expr) : Except EvalErr F64 := eval ops e

/-- The `Rule` enum that pest derives for the grammar: the rule tags matched
by `build_expr` in `src/lib.rs`, plus `EOI`, the end-of-input rule every
pest grammar carries, standing for the tags that reach the defensive
catch-all arm of `build_expr`. -/
inductive Rule where
  | input
  | expression
  | num
  | plus
  | minus
  | multiply
  | divide
  | pow
  | log
  | root
  | sin
  | cos
  | tan
  | exp
  | ln
  | EOI
deriving DecidableEq

/-- A pest `Pair`: the rule tag, the matched source text (`as_str`) and the
inner pairs (`into_inner`) in order. -/
inductive PTree where
  | mk (rule : Rule) (str : String) (children : List PTree)

/-- The errors of the AST-building stage `build_expr` of `src/lib.rs`
(`anyhow` strings in the source; constructors carry the interpolated data). -/
inductive BuildErr where
  | emptyExpression
  | numParse (s : String)
  | missingLeft
  | missingRight
  | missingArgument
  | unexpectedRule (r : Rule)
deriving DecidableEq

/-- The digits of a character list read as a base-10 natural number. -/
def digitsVal (l : List Char) : Nat :=
  l.foldl (fun a c => 10 * a + (c.toNat - Char.toNat '0')) 0

/-- Modelled from Rust std: `str::parse::<f64>` as `build_expr` applies it to
the text matched by the grammar's `num` rule — an optional sign followed by a
plain decimal literal (digits, or digits-dot-digits, or a dot on one side).
The exponent and `inf`/`NaN` forms of the std parser are not modelled: the
grammar never produces them.  A negative literal denoting zero parses to
negative zero, as in Rust. -/
def parseF64 (s : String) : Option F64 :=
  let cs := s.toList
  let signAndRest : Bool × List Char :=
    match cs with
    | '-' :: r => (true, r)
    | '+' :: r => (false, r)
    | _ => (false, cs)
  let neg := signAndRest.1
  let cs1 := signAndRest.2
  let ip := cs1.takeWhile Char.isDigit
  let cs2 := cs1.dropWhile Char.isDigit
  let val? : Option ℚ :=
    match cs2 with
    | [] => if ip.isEmpty then none else some (digitsVal ip : ℚ)
    | '.' :: cs3 =>
      let fp := cs3.takeWhile Char.isDigit
      let cs4 := cs3.dropWhile Char.isDigit
      if cs4.isEmpty ∧ ¬(ip.isEmpty ∧ fp.isEmpty) then
        some ((digitsVal ip : ℚ) + (digitsVal fp : ℚ) / ((10 : ℚ) ^ fp.length))
      else none
    | _ => none
  match val? with
  | none => none
  | some v =>
      some (if neg then (if v = 0 then F64.negZero else F64.fin (-v)) else F64.fin v)

/-- The rule-tag-to-constructor mapping of the binary-operator arm of
`build_expr` (`src/lib.rs` lines 76-84). -/
def binCon : Rule → Option (Expr → Expr → Expr)
  | .plus => some Expr.add
  | .minus => some Expr.sub
  | .multiply => some Expr.mul
  | .divide => some Expr.div
  | .pow => some Expr.pow
  | .log => some Expr.log
  | .root => some Expr.root
  | _ => none

/-- The rule-tag-to-constructor mapping of the unary-function arm of
`build_expr` (`src/lib.rs` lines 91-97). -/
def unCon : Rule → Option (Expr → Expr)
  | .sin => some Expr.sin
  | .cos => some Expr.cos
  | .tan => some Expr.tan
  | .exp => some Expr.exp
  | .ln => some Expr.ln
  | _ => none

/-- The AST builder `build_expr` of `src/lib.rs` lines 48-102, translated arm
by arm: wrapper rules unwrap to their first child, `num` converts its matched
text, binary rules take their first two children (erring on a missing side),
unary rules take their first child, and every other tag is the defensive
"unexpected rule" error. -/
def build_expr : PTree → Except BuildErr Expr
  | .mk r s children =>
    match binCon r with
    | some con =>
      match children with
      | [] => .error .missingLeft
      | [_] => .error .missingRight
      | l :: rt :: _ => do
          let le ← build_expr l
          let re ← build_expr rt
          .ok (con le re)
    | none =>
      match unCon r with
      | some con =>
        match children with
        | [] => .error .missingArgument
        | v :: _ => do
            let e ← build_expr v
            .ok (con e)
      | none =>
        match r with
        | .input | .expression =>
          match children with
          | p1 :: _ => build_expr p1
          | [] => .error .emptyExpression
        | .num =>
          match parseF64 s with
          | some v => .ok (.num v)
          | none => .error (.numParse s)
        | other => .error (.unexpectedRule other)

/-- The rule tag the grammar assigns to each infix operator symbol. -/
def opRule : Char → Option Rule
  | '+' => some .plus
  | '-' => some .minus
  | '*' => some .multiply
  | '/' => some .divide
  | _ => none

/-- The function-call names of the grammar, with the rule tag and argument
count of each. -/
def nameRule (cs : List Char) : Option (Rule × Nat × List Char) :=
  if List.isPrefixOf ['s', 'i', 'n'] cs then some (.sin, 1, cs.drop 3)
  else if List.isPrefixOf ['c', 'o', 's'] cs then some (.cos, 1, cs.drop 3)
  else if List.isPrefixOf ['t', 'a', 'n'] cs then some (.tan, 1, cs.drop 3)
  else if List.isPrefixOf ['e', 'x', 'p'] cs then some (.exp, 1, cs.drop 3)
  else if List.isPrefixOf ['l', 'n'] cs then some (.ln, 1, cs.drop 2)
  else if List.isPrefixOf ['p', 'o', 'w'] cs then some (.pow, 2, cs.drop 3)
  else if List.isPrefixOf ['r', 'o', 'o', 't'] cs then some (.root, 2, cs.drop 4)
  else if List.isPrefixOf ['l', 'o', 'g'] cs then some (.log, 2, cs.drop 3)
  else none

/-- The source text a rule matched, recovered as the characters consumed
between the input before the rule and the input left after it. -/
def takeDiff (before after : List Char) : String :=
  String.mk (before.take (before.length - after.length))

/-- Modelled from the spec: the `num` rule of the missing grammar — optional
sign, digits, optionally a dot that is consumed only when digits follow it.
Produces the childless pest pair whose `as_str` is the matched literal. -/
def parseNumber (cs : List Char) : Option (PTree × List Char) :=
  let signAndRest : List Char × List Char :=
    match cs with
    | '-' :: r => (['-'], r)
    | '+' :: r => (['+'], r)
    | _ => ([], cs)
  let sgn := signAndRest.1
  let cs1 := signAndRest.2
  let ip := cs1.takeWhile Char.isDigit
  let cs2 := cs1.dropWhile Char.isDigit
  if ip.isEmpty then none
  else
    match cs2 with
    | '.' :: cs3 =>
      let fp := cs3.takeWhile Char.isDigit
      let cs4 := cs3.dropWhile Char.isDigit
      if fp.isEmpty then
        some (PTree.mk .num (String.mk (sgn ++ ip)) [], cs2)
      else
        some (PTree.mk .num (String.mk (sgn ++ ip ++ '.' :: fp)) [], cs4)
    | _ => some (PTree.mk .num (String.mk (sgn ++ ip)) [], cs2)

/-- Modelled from the spec: the repository's `grammar.pest` file is not under
`src/`, so the pest-generated parser is modelled from §4.1 of the spec.  An
`expression` is a number (optional sign, digits, optional dot and digits), a
fully parenthesised binary form `"(" expression op expression ")"` with the
operator symbol selecting the rule tag, or a function call
`name "(" expression ["," expression] ")"`.  The result is the concrete pest
pair for the `expression` rule, wrapping the pair of the matched alternative,
whose own children are again `expression` pairs.  Whitespace handling is left
open by the spec and not modelled (no claim exercises it).  The fuel argument
only serves termination: each recursive call consumes at least one character,
so fuel `length + 1` never runs out. -/
def parseExpression : Nat → List Char → Option (PTree × List Char)
  | 0, _ => none
  | Nat.succ fuel, cs =>
    let node? : Option (PTree × List Char) :=
      match cs with
      | '(' :: cs1 =>
        match parseExpression fuel cs1 with
        | some (l, op :: cs3) =>
          match opRule op with
          | some r =>
            match parseExpression fuel cs3 with
            | some (rt, ')' :: cs5) =>
                some (PTree.mk r (takeDiff cs cs5) [l, rt], cs5)
            | _ => none
          | none => none
        | _ => none
      | c :: _ =>
        if c.isAlpha then
          match nameRule cs with
          | some (r, arity, cs1) =>
            match cs1 with
            | '(' :: cs2 =>
              match parseExpression fuel cs2 with
              | some (a1, cs3) =>
                if arity = 1 then
                  match cs3 with
                  | ')' :: cs4 => some (PTree.mk r (takeDiff cs cs4) [a1], cs4)
                  | _ => none
                else
                  match cs3 with
                  | ',' :: cs4 =>
                    match parseExpression fuel cs4 with
                    | some (a2, ')' :: cs6) =>
                        some (PTree.mk r (takeDiff cs cs6) [a1, a2], cs6)
                    | _ => none
                  | _ => none
              | none => none
            | _ => none
          | none => none
        else
          parseNumber cs
      | [] => none
    match node? with
    | some (t, rest) =>
        some (PTree.mk .expression (takeDiff cs rest) [t], rest)
    | none => none

/-- Modelled from the spec: `Grammar::parse(Rule::input, s)` followed by
`.next()` as done in `parse_expression` (`src/lib.rs` lines 162-164) — the
`input` rule is a whole-string `expression`; its pest pair wraps the
expression pair (a trailing `EOI` pair, if the grammar emits one, is dropped
here since `build_expr` only reads the first child). -/
def pestParse (s : String) : Option PTree :=
  match parseExpression (s.length + 1) s.toList with
  | some (e, []) => some (PTree.mk .input s [e])
  | _ => none

/-- The failures of the full pipeline: the pest syntax error, the
AST-building errors and the evaluation errors. -/
inductive Err where
  | parseFailed
  | buildFailed (e : BuildErr)
  | evalFailed (e : EvalErr)
deriving DecidableEq

/-- The public `parse_expression` of `src/lib.rs` lines 161-166: run the
pest parser on the `input` rule, take the first pair, build the AST. -/
def parse_expression (s : String) : Except Err Expr :=
  match pestParse s with
  | none => .error .parseFailed
  | some p => (build_expr p).mapError Err.buildFailed

/-- The value computed by `parse_and_eval` of `src/lib.rs` lines 179-192:
parse, evaluate.  The append of the result line to `res.txt` is modelled
separately by `parse_and_eval_logged`; per the spec the persistence step is
out of the core's scope and its file-system failure modes are not modelled. -/
def parse_and_eval (ops : FloatOps) (input : String) : Except Err F64 := do
  let e ← parse_expression input
  (eval ops e).mapError Err.evalFailed

/-- The state-passing form of `parse_and_eval`: the `res.txt` append modelled
as a log of (trimmed input, result) entries, extended exactly when parsing
and evaluation succeed, as in `src/lib.rs` lines 183-189. -/
def parse_and_eval_logged (ops : FloatOps) (log : List (String × F64))
    (input : String) : Except Err F64 × List (String × F64) :=
  match parse_and_eval ops input with
  | .ok res => (.ok res, log ++ [(input.trim, res)])
  | .error e => (.error e, log)

/-! Helper lemmas about the `Except` monad, shared by the proofs below. -/

theorem except_bind_error {ε α β : Type} (e : ε) (f : α → Except ε β) :
    ((Except.error e : Except ε α) >>= f) = Except.error e := rfl

theorem except_bind_ok {ε α β : Type} (a : α) (f : α → Except ε β) :
    ((Except.ok a : Except ε α) >>= f) = f a := rfl

theorem except_bind_pure_eq_map {ε α β : Type} (x : Except ε α) (f : α → β) :
    (x >>= fun a => Except.ok (f a)) = x.map f := by
  cases x <;> rfl

theorem except_map_ok {ε α β : Type} (a : α) (f : α → β) :
    (Except.ok a : Except ε α).map f = Except.ok (f a) := rfl

theorem except_map_error {ε α β : Type} (e : ε) (f : α → β) :
    (Except.error e : Except ε α).map f = Except.error e := rfl

/-- C1: for `Div(l, r)`, `eval` first evaluates the right operand; a failure
of the right operand is returned unchanged; if it yields a value IEEE-equal
to `0.0` the result is the division-by-zero error for every left operand
(which is never evaluated); otherwise the result is the left operand's
outcome mapped through division by the right value (so a left failure
propagates and a left value gives the quotient). -/
theorem div_checks_right_first (ops : FloatOps) (a b : Expr) :
    (∀ e, eval ops b = .error e → eval ops (.div a b) = .error e) ∧
    (∀ rv, eval ops b = .ok rv → rv.beq (.fin 0) = true →
      eval ops (.div a b) = .error .divisionByZero) ∧
    (∀ rv, eval ops b = .ok rv → rv.beq (.fin 0) = false →
      eval ops (.div a b) = (eval ops a).map fun lv => lv.div rv) := by
  refine ⟨fun e h => ?_, fun rv h hz => ?_, fun rv h hz => ?_⟩
  · simp [eval, h, except_bind_error]
  · simp [eval, h, except_bind_ok, hz]
  · simp [eval, h, except_bind_ok, hz, except_bind_pure_eq_map]

/-- C1 witness: at `Div(1, 0)` the division-by-zero error fires even though
the left operand is itself a diverging division, and at `Div(7, 2)` the
quotient is returned. -/
theorem div_checks_right_first_witness :
    eval trivOps (.div (.div (.num (.fin 1)) (.num (.fin 0))) (.num (.fin 0)))
      = .error .divisionByZero ∧
    eval trivOps (.div (.num (.fin 7)) (.num (.fin 2)))
      = .ok (.fin (7 / 2)) := by
  constructor
  · exact (div_checks_right_first trivOps
      (.div (.num (.fin 1)) (.num (.fin 0))) (.num (.fin 0))).2.1
      (.fin 0) rfl (by decide)
  · have h := (div_checks_right_first trivOps
      (.num (.fin 7)) (.num (.fin 2))).2.2 (.fin 2) rfl (by decide)
    rw [h]
    with_unfolding_all decide

/-- C2: for `Log(v, b)`, `eval` evaluates the value operand first and then
the base operand, both fully before the domain check — a failure of either
operand propagates (the base's even when the value is already out of
domain) — and with both values in hand it errs, reporting both values,
exactly when `v <= 0.0` or `b <= 0.0` or `b == 1.0`, and otherwise returns
`ln v / ln b`; and for `Ln(x)`, with the operand's value in hand it errs
exactly when that value is `<= 0.0` and otherwise returns its natural
logarithm (an operand failure propagating). -/
theorem log_ln_domain_checks (ops : FloatOps) :
    (∀ v b e, eval ops v = .error e → eval ops (.log v b) = .error e) ∧
    (∀ v b vv e, eval ops v = .ok vv → eval ops b = .error e →
      eval ops (.log v b) = .error e) ∧
    (∀ v b vv vb, eval ops v = .ok vv → eval ops b = .ok vb →
      ((vv.le (.fin 0) || vb.le (.fin 0) || vb.beq (.fin 1)) = true →
        eval ops (.log v b) = .error (.invalidLog vv vb)) ∧
      ((vv.le (.fin 0) || vb.le (.fin 0) || vb.beq (.fin 1)) = false →
        eval ops (.log v b) = .ok ((ops.ln vv).div (ops.ln vb)))) ∧
    (∀ x e, eval ops x = .error e → eval ops (.ln x) = .error e) ∧
    (∀ x vx, eval ops x = .ok vx →
      (vx.le (.fin 0) = true → eval ops (.ln x) = .error (.invalidLn vx)) ∧
      (vx.le (.fin 0) = false → eval ops (.ln x) = .ok (ops.ln vx))) := by
  refine ⟨fun v b e h => ?_, fun v b vv e hv hb => ?_,
    fun v b vv vb hv hb => ⟨fun hc => ?_, fun hc => ?_⟩,
    fun x e h => ?_, fun x vx h => ⟨fun hc => ?_, fun hc => ?_⟩⟩
  · simp [eval, h, except_bind_error]
  · simp [eval, hv, hb, except_bind_ok, except_bind_error]
  · simp only [eval, hv, hb, except_bind_ok, hc]
    rfl
  · simp only [eval, hv, hb, except_bind_ok, hc]
    rfl
  · simp [eval, h, except_bind_error]
  · simp only [eval, h, except_bind_ok, hc]
    rfl
  · simp only [eval, h, except_bind_ok, hc]
    rfl

/-- C2 witness: `Log(-1, Div(1, 0))` fails with the division-by-zero error
of the base operand — the base is evaluated although the value `-1` is
already out of domain — while `Log(-1, 2)` fails reporting both values,
`Log(8, 2)` succeeds, `Ln(0)` fails reporting the value and `Ln(2)`
succeeds. -/
theorem log_ln_domain_checks_witness :
    eval trivOps (.log (.num (.fin (-1))) (.div (.num (.fin 1)) (.num (.fin 0))))
      = .error .divisionByZero ∧
    eval trivOps (.log (.num (.fin (-1))) (.num (.fin 2)))
      = .error (.invalidLog (.fin (-1)) (.fin 2)) ∧
    eval trivOps (.log (.num (.fin 8)) (.num (.fin 2)))
      = .ok ((trivOps.ln (.fin 8)).div (trivOps.ln (.fin 2))) ∧
    eval trivOps (.ln (.num (.fin 0))) = .error (.invalidLn (.fin 0)) ∧
    eval trivOps (.ln (.num (.fin 2))) = .ok (trivOps.ln (.fin 2)) := by
  refine ⟨?_, ?_, ?_, ?_, ?_⟩
  · exact (log_ln_domain_checks trivOps).2.1
      (.num (.fin (-1))) (.div (.num (.fin 1)) (.num (.fin 0)))
      (.fin (-1)) .divisionByZero rfl (by decide)
  · exact ((log_ln_domain_checks trivOps).2.2.1
      (.num (.fin (-1))) (.num (.fin 2)) (.fin (-1)) (.fin 2) rfl rfl).1
      (by decide)
  · exact ((log_ln_domain_checks trivOps).2.2.1
      (.num (.fin 8)) (.num (.fin 2)) (.fin 8) (.fin 2) rfl rfl).2
      (by decide)
  · exact ((log_ln_domain_checks trivOps).2.2.2.2
      (.num (.fin 0)) (.fin 0) rfl).1 (by decide)
  · exact ((log_ln_domain_checks trivOps).2.2.2.2
      (.num (.fin 2)) (.fin 2) rfl).2 (by decide)

/-- C3: for `Root(v, d)`, `eval` evaluates the degree operand first; a degree
failure propagates; a degree IEEE-equal to `0.0` gives the zero-degree error
for every value operand (which is never evaluated); otherwise the result is
the value operand's outcome mapped through `powf` at exponent `1.0 / d`,
with no check on the result (a NaN is returned as a success). -/
theorem root_checks_degree_first (ops : FloatOps) (v d : Expr) :
    (∀ e, eval ops d = .error e → eval ops (.root v d) = .error e) ∧
    (∀ dv, eval ops d = .ok dv → dv.beq (.fin 0) = true →
      eval ops (.root v d) = .error .rootDegreeZero) ∧
    (∀ dv, eval ops d = .ok dv → dv.beq (.fin 0) = false →
      eval ops (.root v d)
        = (eval ops v).map fun vv => ops.powf vv ((F64.fin 1).div dv)) := by
  refine ⟨fun e h => ?_, fun dv h hz => ?_, fun dv h hz => ?_⟩
  · simp [eval, h, except_bind_error]
  · simp [eval, h, except_bind_ok, hz]
  · simp [eval, h, except_bind_ok, hz, except_bind_pure_eq_map]

/-- C3 witness: `Root(Div(1, 0), 0)` fails with the zero-degree error even
though its value operand would itself fail, and `Root(-8, 2)` succeeds with
the NaN that `powf` yields under `trivOps` — a non-real root accepted as a
success. -/
theorem root_checks_degree_first_witness :
    eval trivOps (.root (.div (.num (.fin 1)) (.num (.fin 0))) (.num (.fin 0)))
      = .error .rootDegreeZero ∧
    eval trivOps (.root (.num (.fin (-8))) (.num (.fin 2))) = .ok .nan := by
  constructor
  · exact (root_checks_degree_first trivOps
      (.div (.num (.fin 1)) (.num (.fin 0))) (.num (.fin 0))).2.1
      (.fin 0) rfl (by decide)
  · have h := (root_checks_degree_first trivOps
      (.num (.fin (-8))) (.num (.fin 2))).2.2 (.fin 2) rfl (by decide)
    rw [h]
    rfl

/-- C4: `Num(n)` evaluates to `n` for every value `n`, and the `Add`, `Sub`,
`Mul`, `Pow`, `Sin`, `Cos`, `Tan`, `Exp` nodes never produce an error of
their own: when every child succeeds they return the corresponding float
operation applied to the children's values (`Pow`'s result, NaN or infinite
or not, returned as a success), and a child failure is returned unchanged
(left child's failure first). -/
theorem pure_nodes_never_error (ops : FloatOps) :
    (∀ n, eval ops (.num n) = .ok n) ∧
    (∀ a b va vb, eval ops a = .ok va → eval ops b = .ok vb →
      eval ops (.add a b) = .ok (va.add vb) ∧
      eval ops (.sub a b) = .ok (va.sub vb) ∧
      eval ops (.mul a b) = .ok (va.mul vb) ∧
      eval ops (.pow a b) = .ok (ops.powf va vb)) ∧
    (∀ x vx, eval ops x = .ok vx →
      eval ops (.sin x) = .ok (ops.sin vx) ∧
      eval ops (.cos x) = .ok (ops.cos vx) ∧
      eval ops (.tan x) = .ok (ops.tan vx) ∧
      eval ops (.exp x) = .ok (ops.exp vx)) ∧
    (∀ a b e, eval ops a = .error e →
      eval ops (.add a b) = .error e ∧ eval ops (.sub a b) = .error e ∧
      eval ops (.mul a b) = .error e ∧ eval ops (.pow a b) = .error e) ∧
    (∀ a b va e, eval ops a = .ok va → eval ops b = .error e →
      eval ops (.add a b) = .error e ∧ eval ops (.sub a b) = .error e ∧
      eval ops (.mul a b) = .error e ∧ eval ops (.pow a b) = .error e) ∧
    (∀ x e, eval ops x = .error e →
      eval ops (.sin x) = .error e ∧ eval ops (.cos x) = .error e ∧
      eval ops (.tan x) = .error e ∧ eval ops (.exp x) = .error e) := by
  refine ⟨fun n => rfl, fun a b va vb ha hb => ?_, fun x vx h => ?_,
    fun a b e h => ?_, fun a b va e ha hb => ?_, fun x e h => ?_⟩
  · exact ⟨by simp [eval, ha, hb, except_bind_ok],
      by simp [eval, ha, hb, except_bind_ok],
      by simp [eval, ha, hb, except_bind_ok],
      by simp [eval, ha, hb, except_bind_ok]⟩
  · exact ⟨by simp [eval, h, except_bind_ok],
      by simp [eval, h, except_bind_ok],
      by simp [eval, h, except_bind_ok],
      by simp [eval, h, except_bind_ok]⟩
  · exact ⟨by simp [eval, h, except_bind_error],
      by simp [eval, h, except_bind_error],
      by simp [eval, h, except_bind_error],
      by simp [eval, h, except_bind_error]⟩
  · exact ⟨by simp [eval, ha, hb, except_bind_ok, except_bind_error],
      by simp [eval, ha, hb, except_bind_ok, except_bind_error],
      by simp [eval, ha, hb, except_bind_ok, except_bind_error],
      by simp [eval, ha, hb, except_bind_ok, except_bind_error]⟩
  · exact ⟨by simp [eval, h, except_bind_error],
      by simp [eval, h, except_bind_error],
      by simp [eval, h, except_bind_error],
      by simp [eval, h, except_bind_error]⟩

/-- C4 witness: `Num(5)` returns `5`, `Add(1, 2)` returns `3`, and a
division-by-zero failure in the left child of an `Add` propagates. -/
theorem pure_nodes_never_error_witness :
    eval trivOps (.num (.fin 5)) = .ok (.fin 5) ∧
    eval trivOps (.add (.num (.fin 1)) (.num (.fin 2))) = .ok (.fin 3) ∧
    eval trivOps (.add (.div (.num (.fin 1)) (.num (.fin 0))) (.num (.fin 2)))
      = .error .divisionByZero := by
  refine ⟨(pure_nodes_never_error trivOps).1 (.fin 5), ?_, ?_⟩
  · have h := ((pure_nodes_never_error trivOps).2.1
      (.num (.fin 1)) (.num (.fin 2)) (.fin 1) (.fin 2) rfl rfl).1
    rw [h]
    with_unfolding_all decide
  · exact ((pure_nodes_never_error trivOps).2.2.2.1
      (.div (.num (.fin 1)) (.num (.fin 0))) (.num (.fin 2))
      .divisionByZero (by with_unfolding_all decide)).1

/-- C5: parsing then evaluating the listed ground inputs yields the exact
results 46, 2, 6, 5 and 21, for every model of the transcendental
primitives (none of these inputs reaches them). -/
theorem ground_inputs_evaluate (ops : FloatOps) :
    parse_and_eval ops "(12+34)" = .ok (.fin 46) ∧
    parse_and_eval ops "(5-3)" = .ok (.fin 2) ∧
    parse_and_eval ops "(2*3)" = .ok (.fin 6) ∧
    parse_and_eval ops "(10/2)" = .ok (.fin 5) ∧
    parse_and_eval ops "((1+2)*(3+4))" = .ok (.fin 21) := by
  refine ⟨?_, ?_, ?_, ?_, ?_⟩ <;> with_unfolding_all rfl

/-- C6: `parse("(12+34)")` returns an `Add` node with children `Num(12)` and
`Num(34)`, and in `build_expr` each binary rule tag maps 1:1 to its `Expr`
variant (plus to Add, minus to Sub, multiply to Mul, divide to Div, pow to
Pow, log to Log, root to Root), the rule's first and second children
becoming the variant's left and right fields. -/
theorem rule_tags_map_to_variants :
    parse_expression "(12+34)" = .ok (.add (.num (.fin 12)) (.num (.fin 34))) ∧
    (∀ s l r rest el er, build_expr l = .ok el → build_expr r = .ok er →
      build_expr (.mk .plus s (l :: r :: rest)) = .ok (.add el er) ∧
      build_expr (.mk .minus s (l :: r :: rest)) = .ok (.sub el er) ∧
      build_expr (.mk .multiply s (l :: r :: rest)) = .ok (.mul el er) ∧
      build_expr (.mk .divide s (l :: r :: rest)) = .ok (.div el er) ∧
      build_expr (.mk .pow s (l :: r :: rest)) = .ok (.pow el er) ∧
      build_expr (.mk .log s (l :: r :: rest)) = .ok (.log el er) ∧
      build_expr (.mk .root s (l :: r :: rest)) = .ok (.root el er)) := by
  constructor
  · with_unfolding_all rfl
  · intro s l r rest el er hl hr
    refine ⟨?_, ?_, ?_, ?_, ?_, ?_, ?_⟩ <;>
      simp [build_expr, binCon, hl, hr, except_bind_ok]

/-- C6 witness: the mapping applied at leaves `Num(1)` and `Num(2)` — the
plus tag builds `Add(1, 2)`. -/
theorem rule_tags_map_to_variants_witness :
    build_expr (.mk .plus "(1+2)"
      [.mk .num "1" [], .mk .num "2" []])
      = .ok (.add (.num (.fin 1)) (.num (.fin 2))) :=
  (rule_tags_map_to_variants.2 "(1+2)" (.mk .num "1" []) (.mk .num "2" [])
    [] (.num (.fin 1)) (.num (.fin 2)) (by decide) (by decide)).1

/-- C7: on malformed parse-tree nodes `build_expr` returns the defensive
error values rather than panicking: a binary-operator rule with no children
is the missing-left-operand error and with one child the
missing-right-operand error, a unary-function rule with no children is the
missing-argument error, an empty `input` or `expression` wrapper is the
empty-expression error, and any other rule tag (here `EOI`) is the
unexpected-rule error whatever its children. -/
theorem builder_defensive_errors :
    (∀ r s, (binCon r).isSome = true →
      build_expr (.mk r s []) = .error .missingLeft) ∧
    (∀ r s p, (binCon r).isSome = true →
      build_expr (.mk r s [p]) = .error .missingRight) ∧
    (∀ r s, (unCon r).isSome = true →
      build_expr (.mk r s []) = .error .missingArgument) ∧
    (∀ s, build_expr (.mk .input s []) = .error .emptyExpression) ∧
    (∀ s, build_expr (.mk .expression s []) = .error .emptyExpression) ∧
    (∀ s cs, build_expr (.mk .EOI s cs) = .error (.unexpectedRule .EOI)) := by
  refine ⟨fun r s h => ?_, fun r s p h => ?_, fun r s h => ?_,
    fun s => rfl, fun s => rfl, fun s cs => rfl⟩
  · cases r <;> first | rfl | exact Bool.noConfusion h
  · cases r <;> first | rfl | exact Bool.noConfusion h
  · cases r <;> first | rfl | exact Bool.noConfusion h

/-- C7 witness: a childless plus node, a one-child plus node, a childless
sin node, an empty expression wrapper and an `EOI` node each produce their
defensive error. -/
theorem builder_defensive_errors_witness :
    build_expr (.mk .plus "" []) = .error .missingLeft ∧
    build_expr (.mk .plus "" [.mk .num "1" []]) = .error .missingRight ∧
    build_expr (.mk .sin "" []) = .error .missingArgument ∧
    build_expr (.mk .expression "" []) = .error .emptyExpression ∧
    build_expr (.mk .EOI "" [.mk .num "1" []])
      = .error (.unexpectedRule .EOI) :=
  ⟨builder_defensive_errors.1 .plus "" (by decide),
   builder_defensive_errors.2.1 .plus "" (.mk .num "1" []) (by decide),
   builder_defensive_errors.2.2.1 .sin "" (by decide),
   builder_defensive_errors.2.2.2.2.1 "",
   builder_defensive_errors.2.2.2.2.2 "" [.mk .num "1" []]⟩

/-- C8: the parse-then-evaluate composition is a deterministic pure function
of the input, its logging side effect apart: its outcome does not depend on
the accumulated log state, and running it a second time on the same input —
even on the log state the first run produced — yields the same outcome,
success value and failure alike. -/
theorem parse_and_eval_deterministic (ops : FloatOps) (input : String)
    (log1 log2 : List (String × F64)) :
    (parse_and_eval_logged ops log1 input).1
      = (parse_and_eval_logged ops log2 input).1 ∧
    (parse_and_eval_logged ops (parse_and_eval_logged ops log1 input).2
        input).1
      = (parse_and_eval_logged ops log1 input).1 := by
  unfold parse_and_eval_logged
  cases parse_and_eval ops input <;> simp

/-- C9: a checked operand that evaluates to NaN never triggers a domain
error, since NaN compares false against `0.0` and `1.0` under IEEE `==` and
`<=`: a `Div` with NaN divisor divides (yielding NaN), an `Ln` of NaN takes
the logarithm, a `Log` whose value or base is NaN passes the NaN side of its
check (and succeeds when the other operand also passes its side), and a
`Root` with NaN degree raises to the power `1.0 / NaN`. -/
theorem nan_never_domain_error (ops : FloatOps) :
    (F64.nan.beq (.fin 0) = false ∧ F64.nan.le (.fin 0) = false ∧
      F64.nan.beq (.fin 1) = false) ∧
    (∀ a b va, eval ops a = .ok va → eval ops b = .ok .nan →
      eval ops (.div a b) = .ok (va.div .nan) ∧ va.div .nan = .nan) ∧
    (∀ x, eval ops x = .ok .nan → eval ops (.ln x) = .ok (ops.ln .nan)) ∧
    (∀ v b vb, eval ops v = .ok .nan → eval ops b = .ok vb →
      vb.le (.fin 0) = false → vb.beq (.fin 1) = false →
      eval ops (.log v b) = .ok ((ops.ln .nan).div (ops.ln vb))) ∧
    (∀ v b vv, eval ops v = .ok vv → eval ops b = .ok .nan →
      vv.le (.fin 0) = false →
      eval ops (.log v b) = .ok ((ops.ln vv).div (ops.ln .nan))) ∧
    (∀ v d vv, eval ops d = .ok .nan → eval ops v = .ok vv →
      eval ops (.root v d) = .ok (ops.powf vv ((F64.fin 1).div .nan))) := by
  refine ⟨⟨rfl, rfl, rfl⟩, fun a b va ha hb => ?_, fun x h => ?_,
    fun v b vb hv hb h0 h1 => ?_, fun v b vv hv hb h0 => ?_,
    fun v d vv hd hv => ?_⟩
  · exact ⟨by simp [eval, ha, hb, except_bind_ok]; rfl, by cases va <;> rfl⟩
  · simp only [eval, h, except_bind_ok]
    rfl
  · simp only [eval, hv, hb, except_bind_ok, h0, h1]
    rfl
  · simp only [eval, hv, hb, except_bind_ok, h0]
    rfl
  · simp only [eval, hd, hv, except_bind_ok]
    rfl

/-- C9 witness: with NaN literals in the checked positions, `Div`, `Ln`,
`Log` (on either side) and `Root` all succeed. -/
theorem nan_never_domain_error_witness :
    eval trivOps (.div (.num (.fin 3)) (.num .nan)) = .ok .nan ∧
    eval trivOps (.ln (.num .nan)) = .ok (trivOps.ln .nan) ∧
    eval trivOps (.log (.num .nan) (.num (.fin 2)))
      = .ok ((trivOps.ln .nan).div (trivOps.ln (.fin 2))) ∧
    eval trivOps (.log (.num (.fin 8)) (.num .nan))
      = .ok ((trivOps.ln (.fin 8)).div (trivOps.ln .nan)) ∧
    eval trivOps (.root (.num (.fin 8)) (.num .nan))
      = .ok (trivOps.powf (.fin 8) ((F64.fin 1).div .nan)) := by
  refine ⟨?_, ?_, ?_, ?_, ?_⟩
  · have h := (nan_never_domain_error trivOps).2.1
      (.num (.fin 3)) (.num .nan) (.fin 3) rfl rfl
    rw [h.1, h.2]
  · exact (nan_never_domain_error trivOps).2.2.1 (.num .nan) rfl
  · exact (nan_never_domain_error trivOps).2.2.2.1
      (.num .nan) (.num (.fin 2)) (.fin 2) rfl rfl (by decide) (by decide)
  · exact (nan_never_domain_error trivOps).2.2.2.2.1
      (.num (.fin 8)) (.num .nan) (.fin 8) rfl rfl (by decide)
  · exact (nan_never_domain_error trivOps).2.2.2.2.2
      (.num (.fin 8)) (.num .nan) (.fin 8) rfl rfl

/-- C10: negative zero counts as zero in the guarded operations, since IEEE
`==` equates `-0.0` and `0.0`: a `Div` whose divisor evaluates to `-0.0`
fails with the division-by-zero error and a `Root` whose degree evaluates to
`-0.0` fails with the zero-degree error. -/
theorem neg_zero_counts_as_zero (ops : FloatOps) :
    F64.negZero.beq (.fin 0) = true ∧
    (∀ a b, eval ops b = .ok .negZero →
      eval ops (.div a b) = .error .divisionByZero) ∧
    (∀ v d, eval ops d = .ok .negZero →
      eval ops (.root v d) = .error .rootDegreeZero) := by
  refine ⟨rfl, fun a b h => ?_, fun v d h => ?_⟩
  · simp only [eval, h, except_bind_ok]
    rfl
  · simp only [eval, h, except_bind_ok]
    rfl

/-- C10 witness: dividing by the literal `-0.0` and taking a root of degree
`-0.0` both fail. -/
theorem neg_zero_counts_as_zero_witness :
    eval trivOps (.div (.num (.fin 1)) (.num .negZero))
      = .error .divisionByZero ∧
    eval trivOps (.root (.num (.fin 8)) (.num .negZero))
      = .error .rootDegreeZero :=
  ⟨(neg_zero_counts_as_zero trivOps).2.1 (.num (.fin 1)) (.num .negZero) rfl,
   (neg_zero_counts_as_zero trivOps).2.2 (.num (.fin 8)) (.num .negZero) rfl⟩

end MathExpr
